import Mathlib

set_option maxRecDepth 10000

/-!
Verification of the `translation-auditor` repository.

The repository consists of one serverless HTTP handler (`src/api/audit.js`,
with a near-duplicate in a second source file): it validates a POST request
carrying a source text and a translation, builds an audit prompt around a
style guide, calls an external chat-completion API once, parses the model's
textual reply as JSON (strict parse first, then a brace-scan fallback),
renders the parsed report as an HTML table, and maps every failure to an
HTTP status.

Strings are modelled as `List Char` (JS strings are immutable character
sequences; the code never uses surrogate-sensitive operations).  The
external completion API is modelled as a function (`oracle`) from the
outbound request to a response, and `JSON.parse` applied to the reply body
is modelled as a function parameter `jparse` from text to an optional
parsed report, since the repository delegates JSON parsing to the runtime.
All definitions below are transcribed from `src/api/audit.js`, the variant
of the handler that contains the brace-scan fallback and the credential
check.
-/

namespace TranslationAuditor

/-- The apostrophe character (U+0027), written via its code point. -/
def aposC : Char := Char.ofNat 39

/-- The opening-brace character (U+007B). -/
def lbrace : Char := Char.ofNat 123

/-- The closing-brace character (U+007D). -/
def rbrace : Char := Char.ofNat 125

/-- One step of `String.prototype.replaceAll` with a single-character
pattern: every occurrence of `pat` is replaced by `rep`.  For a
one-character pattern this left-to-right scan is exactly a per-character
substitution. -/
def replAll (pat : Char) (rep : List Char) : List Char → List Char
  | [] => []
  | c :: rest => (if c = pat then rep else [c]) ++ replAll pat rep rest

/-- `escapeHtml` from `src/api/audit.js` lines 129-136: five chained
`replaceAll` calls, ampersand first. -/
def escapeHtml (s : List Char) : List Char :=
  replAll aposC "&#39;".toList
    (replAll '"' "&quot;".toList
      (replAll '>' "&gt;".toList
        (replAll '<' "&lt;".toList
          (replAll '&' "&amp;".toList s))))

/-- The per-character substitution that the chain of `replaceAll` calls in
`escapeHtml` performs: each of the five HTML metacharacters goes to its
entity, every other character is kept. -/
def escChar (c : Char) : List Char :=
  if c = '&' then "&amp;".toList
  else if c = '<' then "&lt;".toList
  else if c = '>' then "&gt;".toList
  else if c = '"' then "&quot;".toList
  else if c = aposC then "&#39;".toList
  else [c]

/-- Decoding of the five standard HTML character entities that
`escapeHtml` can emit (`&amp;` `&lt;` `&gt;` `&quot;` `&#39;`); every
other character is passed through.  This models the text-content decoding
a standard HTML parser applies to the escaped output, which contains no
other entity forms. -/
def decodeEntities : List Char → List Char
  | [] => []
  | c :: rest =>
    if c = '&' then
      if "amp;".toList <+: rest then '&' :: decodeEntities (rest.drop 4)
      else if "lt;".toList <+: rest then '<' :: decodeEntities (rest.drop 3)
      else if "gt;".toList <+: rest then '>' :: decodeEntities (rest.drop 3)
      else if "quot;".toList <+: rest then '"' :: decodeEntities (rest.drop 5)
      else if "#39;".toList <+: rest then aposC :: decodeEntities (rest.drop 4)
      else c :: decodeEntities rest
    else c :: decodeEntities rest
termination_by l => l.length
decreasing_by
  all_goals simp only [List.length_drop, List.length_cons]
  all_goals omega

/-- JavaScript `a || b` for an optional string `a`: `undefined`/`null` and
the empty string are falsy and give `b`. -/
def jsOr (o : Option (List Char)) (d : List Char) : List Char :=
  match o with
  | none => d
  | some s => if s.isEmpty then d else s

/-- JavaScript `a ?? b` for an optional string and `b = ""`: only
`undefined`/`null` is replaced; an empty string is kept. -/
def jsCoalesce (o : Option (List Char)) : List Char :=
  match o with
  | none => []
  | some s => s

/-- JavaScript truthiness of an optional string: present and non-empty. -/
def truthy (o : Option (List Char)) : Bool :=
  match o with
  | none => false
  | some s => !s.isEmpty

/-- `String.prototype.trim`, left half: drop leading whitespace. -/
def ltrim (l : List Char) : List Char := l.dropWhile Char.isWhitespace

/-- `String.prototype.trim`, right half: drop trailing whitespace. -/
def rtrim (l : List Char) : List Char :=
  (l.reverse.dropWhile Char.isWhitespace).reverse

/-- `String.prototype.trim`: drop leading and trailing whitespace. -/
def htrim (l : List Char) : List Char := rtrim (ltrim l)

/-- The default style guide embedded in the prompt template
(`src/api/audit.js` lines 37-39). -/
def defaultGuideL : List Char :=
  "Tone: concise, friendly, product/help-center.\nFixed terms: imToken, Passkey, Token Collections, Arbitrum.\nPrefer idiomatic English; avoid literal calques.".toList

/-- The fixed part of the user prompt before the style-guide slot
(`src/api/audit.js` lines 27-36), including the template literal's leading
newline. -/
def promptHead : List Char :=
  "\nAudit the translation for accuracy, idiomaticity, and consistency.\n1) Split both texts into paragraphs by blank lines; align by order.\n2) For each pair, identify issues: mistranslation, missing info, unnatural phrasing,\n   term inconsistency, punctuation/format.\n3) Provide a corrected rewrite (concise, idiomatic, same meaning).\n4) Score each pair: Accuracy/Idiomaticity/Consistency (1–5).\n5) Mark severity: minor / moderate / critical.\n\nStyle guide (customizable):\n".toList

/-- The fixed part of the user prompt between the style guide and the
source text. -/
def promptMidA : List Char := "\n\nTexts:\nSOURCE:\n".toList

/-- The fixed part of the user prompt between the source text and the
translation text. -/
def promptMidB : List Char := "\n\nTRANSLATION:\n".toList

/-- The user prompt template of `src/api/audit.js` lines 26-47 before the
final `.trim()`: fixed instructions, then `style || default`, then the two
texts, then the template literal's trailing newline. -/
def userPromptRaw (src tgt : List Char) (style : Option (List Char)) : List Char :=
  promptHead ++ (jsOr style defaultGuideL ++ (promptMidA ++ (src ++ (promptMidB ++ (tgt ++ "\n".toList)))))

/-- The user prompt actually sent upstream: the raw template after
`.trim()`. -/
def userPrompt (src tgt : List Char) (style : Option (List Char)) : List Char :=
  htrim (userPromptRaw src tgt style)

/-- The system prompt of `src/api/audit.js` lines 16-25 (braces written via
code-point escapes). -/
def systemPromptL : List Char :=
  "You are a senior bilingual editor and must return ONLY a JSON object.\nNo markdown fences, no backticks, no commentary. Schema:\n\x7b\n  \"rows\": [\n    \x7b \"index\": 1, \"source\": \"...\", \"translation\": \"...\", \"issues\": \"...\",\n      \"fix\": \"...\", \"score\": \"5/4/5\", \"severity\": \"minor\" \x7d\n  ],\n  \"summary\": \"...\",\n  \"rules\": [\"rule1\",\"rule2\",\"rule3\"]\n\x7d".toList

/-- One row of the model's report (§3 of the spec).  The handler treats
every field as optional; per claim C3's scope the fields are
string-valued. -/
structure AuditRow where
  index : Option (List Char)
  source : Option (List Char)
  trans : Option (List Char)
  issues : Option (List Char)
  fix : Option (List Char)
  score : Option (List Char)
  severity : Option (List Char)

/-- The parsed form of the model's reply (§3 of the spec): rows, summary
and style rules, each treated as possibly missing by the renderer. -/
structure Report where
  rows : Option (List AuditRow)
  summary : Option (List Char)
  rules : Option (List (List Char))

/-- Row template, piece before the index cell's value (`src/api/audit.js`
lines 96-97). -/
def rowT1 : List Char := "\n      <tr>\n        <td>".toList

/-- Row template, piece between the index value and the source cell. -/
def rowT2 : List Char := "</td>\n        <td><pre style=\"white-space:pre-wrap;margin:0\">".toList

/-- Row template, piece between two adjacent `pre`-wrapped cells. -/
def rowT3 : List Char := "</pre></td>\n        <td><pre style=\"white-space:pre-wrap;margin:0\">".toList

/-- Row template, piece between the fix cell and the score cell. -/
def rowT6 : List Char := "</pre></td>\n        <td>".toList

/-- Row template, piece between the score cell and the severity cell. -/
def rowT7 : List Char := "</td>\n        <td>".toList

/-- Row template, closing piece after the severity cell. -/
def rowT8 : List Char := "</td>\n      </tr>\n    ".toList

/-- The per-row template of `src/api/audit.js` lines 95-106: the `index`
field is interpolated verbatim (only `null`/`undefined` becomes the empty
string, via `?? ""`), every other cell goes through `escapeHtml` (with
`|| ""` for missing fields). -/
def renderRow (r : AuditRow) : List Char :=
  rowT1 ++ (jsCoalesce r.index ++ (rowT2 ++ (escapeHtml (jsOr r.source []) ++
    (rowT3 ++ (escapeHtml (jsOr r.trans []) ++ (rowT3 ++ (escapeHtml (jsOr r.issues []) ++
      (rowT3 ++ (escapeHtml (jsOr r.fix []) ++ (rowT6 ++ (escapeHtml (jsOr r.score []) ++
        (rowT7 ++ (escapeHtml (jsOr r.severity []) ++ rowT8)))))))))))))

/-- `(parsed.rows || []).map(renderRow).join("")` from `src/api/audit.js`
line 95. -/
def rowsHtmlL (rows : List AuditRow) : List Char :=
  (rows.map renderRow).flatten

/-- Report template, piece before the data rows (table head with its one
header row). -/
def htmlT1 : List Char :=
  "\n      <table>\n        <thead>\n          <tr>\n            <th>#</th><th>Source</th><th>Translation</th><th>Issues</th><th>Fix</th>\n            <th>Acc/Idio/Cons</th><th>Severity</th>\n          </tr>\n        </thead>\n        <tbody>".toList

/-- Report template, piece between the data rows and the summary text. -/
def htmlT2 : List Char :=
  "</tbody>\n      </table>\n      <h3>Summary</h3>\n      <pre class=\"mono\">".toList

/-- Report template, piece between the summary and the rules list. -/
def htmlT3 : List Char := "</pre>\n      <h3>Style Rules</h3>\n      <ul>".toList

/-- Report template, closing piece. -/
def htmlT4 : List Char := "</ul>\n    ".toList

/-- `(parsed.rules || []).map(x => ...).join("")` from `src/api/audit.js`
line 121. -/
def rulesHtmlL (rs : List (List Char)) : List Char :=
  (rs.map (fun x => "<li>".toList ++ (escapeHtml x ++ "</li>".toList))).flatten

/-- The full HTML report of `src/api/audit.js` lines 108-122. -/
def renderReport (p : Report) : List Char :=
  htmlT1 ++ (rowsHtmlL (p.rows.getD []) ++ (htmlT2 ++ (escapeHtml (jsOr p.summary []) ++
    (htmlT3 ++ (rulesHtmlL (p.rules.getD []) ++ htmlT4)))))

/-- `content.indexOf("{")` as an optional index (JS returns `-1` when
absent). -/
def firstBrace (l : List Char) : Option Nat :=
  l.findIdx? (fun c => c == lbrace)

/-- `content.lastIndexOf("}")` as an optional index. -/
def lastBrace (l : List Char) : Option Nat :=
  match l.reverse.findIdx? (fun c => c == rbrace) with
  | none => none
  | some k => some (l.length - 1 - k)

/-- The brace-scan extraction of `src/api/audit.js` lines 81-85: when the
first `{` and the last `}` exist with the `}` strictly later, the
substring `content.slice(start, end + 1)`. -/
def extractBraces (l : List Char) : Option (List Char) :=
  match firstBrace l, lastBrace l with
  | some s, some e => if s < e then some ((l.drop s).take (e + 1 - s)) else none
  | _, _ => none

/-- The fixed parse-failure message of `src/api/audit.js` lines 88 and 91. -/
def parseFailL : List Char := "Failed to parse model JSON.".toList

/-- The two-stage parsing policy of `src/api/audit.js` lines 76-93: strict
parse first; on failure, brace-scan and parse the extracted substring; if
that also fails (or no valid brace pair exists), the fixed failure
message.  `jparse` stands for `JSON.parse` read back into a report. -/
def parseStage (jparse : List Char → Option Report) (content : List Char) :
    Except (List Char) Report :=
  match jparse content with
  | some p => Except.ok p
  | none =>
    match extractBraces content with
    | some maybe =>
      match jparse maybe with
      | some p => Except.ok p
      | none => Except.error parseFailL
    | none => Except.error parseFailL

/-- Server environment: the `OPENAI_API_KEY` variable (absent or a string;
the empty string is falsy like an unset variable). -/
structure Env where
  apiKey : Option (List Char)

/-- Parsed request body.  `extra` stands for any further properties of the
JSON body, which the handler's destructuring ignores. -/
structure ReqBody where
  src : Option (List Char)
  tgt : Option (List Char)
  style : Option (List Char)
  extra : List Char

/-- Inbound request: method, optional JSON body, and `headers` standing
for all request data the handler never reads. -/
structure Req where
  method : List Char
  body : Option ReqBody
  headers : List Char

/-- `req.body || {}` from `src/api/audit.js` line 11. -/
def reqBody (r : Req) : ReqBody :=
  r.body.getD ⟨none, none, none, []⟩

/-- The outbound completion request: the two messages and the model
identifier.  The remaining outbound fields (temperature `0.2`,
`response_format`) are constants of the source and carry no request
information. -/
structure Outbound where
  system : List Char
  user : List Char
  modelName : List Char

/-- The outbound request the handler builds (`src/api/audit.js` lines
49-66). -/
def mkOutbound (src tgt : List Char) (style : Option (List Char)) : Outbound :=
  ⟨systemPromptL, userPrompt src tgt style, "gpt-5".toList⟩

/-- The external API's behaviour on one call: a non-success HTTP response
whose body text is surfaced, or a success whose
`choices[0].message.content` is the optional reply text (optional-chaining
yields `undefined` when any link is missing). -/
inductive UpstreamResp where
  | httpError (text : List Char)
  | success (content : Option (List Char))

/-- Response body: an error object or a rendered-HTML object. -/
inductive RespBody where
  | err (msg : List Char)
  | okHtml (html : List Char)
deriving DecidableEq

/-- An HTTP response: status code and JSON body. -/
structure HRes where
  status : Nat
  body : RespBody
deriving DecidableEq

/-- The handler pipeline of `src/api/audit.js` as a function of the data
it actually reads: the method and the three destructured body fields.
`jparse` models `JSON.parse` on the reply text, `oracle` models the
external completion API. -/
def handlerCore (env : Env) (jparse : List Char → Option Report)
    (oracle : Outbound → UpstreamResp) (method : List Char)
    (src tgt style : Option (List Char)) : HRes :=
  if method ≠ "POST".toList then ⟨405, RespBody.err "Method not allowed".toList⟩
  else if truthy env.apiKey = false then
    ⟨500, RespBody.err "Missing OPENAI_API_KEY".toList⟩
  else if !truthy src || !truthy tgt then
    ⟨400, RespBody.err "Missing source or translation".toList⟩
  else
    match oracle (mkOutbound (src.getD []) (tgt.getD []) style) with
    | UpstreamResp.httpError t => ⟨500, RespBody.err ("OpenAI error: ".toList ++ t)⟩
    | UpstreamResp.success contentOpt =>
      match parseStage jparse ((contentOpt.map htrim).getD []) with
      | Except.error e => ⟨500, RespBody.err e⟩
      | Except.ok parsed => ⟨200, RespBody.okHtml (renderReport parsed)⟩

/-- The exported handler of `src/api/audit.js`: reads `req.method` and the
`src`/`tgt`/`style` fields of `req.body || {}` and nothing else. -/
def handler (env : Env) (jparse : List Char → Option Report)
    (oracle : Outbound → UpstreamResp) (req : Req) : HRes :=
  handlerCore env jparse oracle req.method (reqBody req).src (reqBody req).tgt
    (reqBody req).style

/-- The pattern whose occurrences count table-row openings. -/
def trOpenL : List Char := ['<', 't', 'r', '>']

/-- `startsTr l` holds when `l` begins with the four characters of the
`<tr>` tag. -/
def startsTr (l : List Char) : Bool := trOpenL.isPrefixOf l

/-- The number of positions of `l` at which a `<tr>` tag begins. -/
def countTr : List Char → Nat
  | [] => 0
  | c :: rest => (if startsTr (c :: rest) then 1 else 0) + countTr rest

/-- Boundary safety for counting `<tr>` occurrences in a concatenation:
no suffix of length at most 3 contains `<`, so no occurrence can start in
the last three characters and spill into what follows. -/
def safeT (l : List Char) : Prop :=
  ∀ s : List Char, s <:+ l → s.length ≤ 3 → '<' ∉ s

/-! ## General helper lemmas -/

theorem suffix_of_suffix_len_le {s t l : List Char} (hs : s <:+ l) (ht : t <:+ l)
    (h : s.length ≤ t.length) : s <:+ t := by
  rw [← List.reverse_prefix] at hs ht ⊢
  exact List.prefix_of_prefix_length_le hs ht (by simpa using h)

theorem not_pfx_head {a b : Char} {l₁ l₂ : List Char} (h : a ≠ b) :
    ¬ (a :: l₁ <+: b :: l₂) := by
  rintro ⟨r, hr⟩
  simp only [List.cons_append] at hr
  exact h (List.head_eq_of_cons_eq hr)

/-! ## Lemmas about `escapeHtml` -/

theorem replAll_append (pat : Char) (rep : List Char) (a b : List Char) :
    replAll pat rep (a ++ b) = replAll pat rep a ++ replAll pat rep b := by
  induction a with
  | nil => simp [replAll]
  | cons c a ih => simp [replAll, ih]

/-- The chained `replaceAll` calls of `escapeHtml` act independently on
each character: each of the five metacharacters becomes its entity and
every other character is kept. -/
theorem escapeHtml_eq_flatten (s : List Char) :
    escapeHtml s = (s.map escChar).flatten := by
  induction s with
  | nil => rfl
  | cons c s ih =>
    show escapeHtml (c :: s) = escChar c ++ (s.map escChar).flatten
    rw [← ih]
    show replAll aposC "&#39;".toList
      (replAll '"' "&quot;".toList
        (replAll '>' "&gt;".toList
          (replAll '<' "&lt;".toList
            (replAll '&' "&amp;".toList (c :: s))))) = _
    rw [show replAll '&' "&amp;".toList (c :: s)
        = (if c = '&' then "&amp;".toList else [c]) ++ replAll '&' "&amp;".toList s from rfl]
    rw [replAll_append, replAll_append, replAll_append, replAll_append]
    congr 1
    by_cases h1 : c = '&'
    · subst h1; rfl
    · by_cases h2 : c = '<'
      · subst h2; rfl
      · by_cases h3 : c = '>'
        · subst h3; rfl
        · by_cases h4 : c = '"'
          · subst h4; rfl
          · by_cases h5 : c = aposC
            · subst h5; rfl
            · simp [replAll, escChar, h1, h2, h3, h4, h5]

theorem escapeHtml_no_lt (s : List Char) : '<' ∉ escapeHtml s := by
  rw [escapeHtml_eq_flatten]
  intro hm
  rw [List.mem_flatten] at hm
  obtain ⟨l, hl, hcl⟩ := hm
  rw [List.mem_map] at hl
  obtain ⟨c, _, rfl⟩ := hl
  unfold escChar at hcl
  split_ifs at hcl with h1 h2 h3 h4 h5
  · revert hcl; decide
  · revert hcl; decide
  · revert hcl; decide
  · revert hcl; decide
  · revert hcl; decide
  · simp at hcl; exact h2 hcl.symm

/-! ## Lemmas about `decodeEntities` -/

theorem dec_plain {c : Char} (t : List Char) (h : c ≠ '&') :
    decodeEntities (c :: t) = c :: decodeEntities t := by
  rw [decodeEntities]
  simp [h]

theorem dec_amp (t : List Char) :
    decodeEntities ('&' :: ("amp;".toList ++ t)) = '&' :: decodeEntities t := by
  rw [decodeEntities]
  rw [if_pos rfl, if_pos (List.prefix_append _ _)]
  exact congrArg (fun x => '&' :: decodeEntities x) (List.drop_left' rfl)

theorem dec_lt (t : List Char) :
    decodeEntities ('&' :: ("lt;".toList ++ t)) = '<' :: decodeEntities t := by
  rw [decodeEntities]
  rw [if_pos rfl]
  rw [if_neg (show ¬ ("amp;".toList <+: "lt;".toList ++ t) from not_pfx_head (by decide))]
  rw [if_pos (List.prefix_append _ _)]
  exact congrArg (fun x => '<' :: decodeEntities x) (List.drop_left' rfl)

theorem dec_gt (t : List Char) :
    decodeEntities ('&' :: ("gt;".toList ++ t)) = '>' :: decodeEntities t := by
  rw [decodeEntities]
  rw [if_pos rfl]
  rw [if_neg (show ¬ ("amp;".toList <+: "gt;".toList ++ t) from not_pfx_head (by decide))]
  rw [if_neg (show ¬ ("lt;".toList <+: "gt;".toList ++ t) from not_pfx_head (by decide))]
  rw [if_pos (List.prefix_append _ _)]
  exact congrArg (fun x => '>' :: decodeEntities x) (List.drop_left' rfl)

theorem dec_quot (t : List Char) :
    decodeEntities ('&' :: ("quot;".toList ++ t)) = '"' :: decodeEntities t := by
  rw [decodeEntities]
  rw [if_pos rfl]
  rw [if_neg (show ¬ ("amp;".toList <+: "quot;".toList ++ t) from not_pfx_head (by decide))]
  rw [if_neg (show ¬ ("lt;".toList <+: "quot;".toList ++ t) from not_pfx_head (by decide))]
  rw [if_neg (show ¬ ("gt;".toList <+: "quot;".toList ++ t) from not_pfx_head (by decide))]
  rw [if_pos (List.prefix_append _ _)]
  exact congrArg (fun x => '"' :: decodeEntities x) (List.drop_left' rfl)

theorem dec_apos (t : List Char) :
    decodeEntities ('&' :: ("#39;".toList ++ t)) = aposC :: decodeEntities t := by
  rw [decodeEntities]
  rw [if_pos rfl]
  rw [if_neg (show ¬ ("amp;".toList <+: "#39;".toList ++ t) from not_pfx_head (by decide))]
  rw [if_neg (show ¬ ("lt;".toList <+: "#39;".toList ++ t) from not_pfx_head (by decide))]
  rw [if_neg (show ¬ ("gt;".toList <+: "#39;".toList ++ t) from not_pfx_head (by decide))]
  rw [if_neg (show ¬ ("quot;".toList <+: "#39;".toList ++ t) from not_pfx_head (by decide))]
  rw [if_pos (List.prefix_append _ _)]
  exact congrArg (fun x => aposC :: decodeEntities x) (List.drop_left' rfl)

/-- Decoding inverts the per-character escape in front of any
continuation. -/
theorem decode_escChar (c : Char) (t : List Char) :
    decodeEntities (escChar c ++ t) = c :: decodeEntities t := by
  by_cases h1 : c = '&'
  · subst h1
    show decodeEntities ('&' :: ("amp;".toList ++ t)) = _
    rw [dec_amp]
  · by_cases h2 : c = '<'
    · subst h2
      show decodeEntities ('&' :: ("lt;".toList ++ t)) = _
      rw [dec_lt]
    · by_cases h3 : c = '>'
      · subst h3
        show decodeEntities ('&' :: ("gt;".toList ++ t)) = _
        rw [dec_gt]
      · by_cases h4 : c = '"'
        · subst h4
          show decodeEntities ('&' :: ("quot;".toList ++ t)) = _
          rw [dec_quot]
        · by_cases h5 : c = aposC
          · subst h5
            show decodeEntities ('&' :: ("#39;".toList ++ t)) = _
            rw [dec_apos]
          · have he : escChar c = [c] := by simp [escChar, h1, h2, h3, h4, h5]
            rw [he]
            exact dec_plain t h1

/-! ## Counting `<tr>` occurrences -/

theorem safeT_of_drop (l : List Char) (h : '<' ∉ l.drop (l.length - 3)) : safeT l := by
  intro s hs hlen hmem
  have h1 : l.drop (l.length - 3) <:+ l := List.drop_suffix _ _
  have h2 : s <:+ l.drop (l.length - 3) := by
    apply suffix_of_suffix_len_le hs h1
    have := hs.length_le
    simp only [List.length_drop]
    omega
  exact h (h2.subset hmem)

theorem safeT_of_not_mem {l : List Char} (h : '<' ∉ l) : safeT l :=
  fun _ hs _ hm => h (hs.subset hm)

theorem startsTr_false_of_head {c : Char} (l : List Char) (h : c ≠ '<') :
    startsTr (c :: l) = false := by
  unfold startsTr trOpenL
  simp [List.isPrefixOf]
  intro hc
  exact absurd hc.symm h

theorem startsTr_eq_of_ge (l b : List Char) (h : 4 ≤ l.length) :
    startsTr (l ++ b) = startsTr l := by
  match l, h with
  | c1 :: c2 :: c3 :: c4 :: r, _ =>
    show startsTr (c1 :: c2 :: c3 :: c4 :: (r ++ b)) = _
    simp [startsTr, trOpenL, List.isPrefixOf]

/-- Counting distributes over a concatenation whose left part cannot host
the start of an occurrence in its last three characters. -/
theorem countTr_append (a b : List Char) (ha : safeT a) :
    countTr (a ++ b) = countTr a + countTr b := by
  induction a with
  | nil => simp [countTr]
  | cons c a ih =>
    have ha' : safeT a := fun s hs hl => ha s (hs.trans (List.suffix_cons c a)) hl
    have hflag : startsTr (c :: (a ++ b)) = startsTr (c :: a) := by
      by_cases hlen : 4 ≤ (c :: a).length
      · exact startsTr_eq_of_ge (c :: a) b hlen
      · have hni : '<' ∉ c :: a := ha _ (List.suffix_refl _) (by simp at hlen ⊢; omega)
        have hc : c ≠ '<' := fun hh => hni (hh ▸ List.mem_cons_self c a)
        rw [startsTr_false_of_head _ hc, startsTr_false_of_head _ hc]
    show (if startsTr (c :: (a ++ b)) then 1 else 0) + countTr (a ++ b)
      = ((if startsTr (c :: a) then 1 else 0) + countTr a) + countTr b
    rw [hflag, ih ha']
    omega

theorem countTr_zero_of_not_mem {a : List Char} (h : '<' ∉ a) : countTr a = 0 := by
  induction a with
  | nil => rfl
  | cons c a ih =>
    have hc : c ≠ '<' := fun hh => h (hh ▸ List.mem_cons_self c a)
    rw [countTr, startsTr_false_of_head _ hc, ih (fun hm => h (List.mem_cons_of_mem _ hm))]
    simp

theorem safeT_append_right (a t : List Char) (hlen : 3 ≤ t.length) (ht : safeT t) :
    safeT (a ++ t) := by
  intro s hs hl
  exact ht s (suffix_of_suffix_len_le hs (List.suffix_append a t) (by omega)) hl

/-- Every rendered row contains exactly one `<tr>` opening, provided its
index value (which is interpolated verbatim) contains no `<`.  All other
cells go through `escapeHtml`, whose output never contains `<`. -/
theorem countTr_renderRow (r : AuditRow) (h : '<' ∉ jsCoalesce r.index) :
    countTr (renderRow r) = 1 := by
  unfold renderRow
  rw [countTr_append _ _ (safeT_of_drop rowT1 (by decide))]
  rw [countTr_append _ _ (safeT_of_not_mem h)]
  rw [countTr_append _ _ (safeT_of_drop rowT2 (by decide))]
  rw [countTr_append _ _ (safeT_of_not_mem (escapeHtml_no_lt _))]
  rw [countTr_append _ _ (safeT_of_drop rowT3 (by decide))]
  rw [countTr_append _ _ (safeT_of_not_mem (escapeHtml_no_lt _))]
  rw [countTr_append _ _ (safeT_of_drop rowT3 (by decide))]
  rw [countTr_append _ _ (safeT_of_not_mem (escapeHtml_no_lt _))]
  rw [countTr_append _ _ (safeT_of_drop rowT3 (by decide))]
  rw [countTr_append _ _ (safeT_of_not_mem (escapeHtml_no_lt _))]
  rw [countTr_append _ _ (safeT_of_drop rowT6 (by decide))]
  rw [countTr_append _ _ (safeT_of_not_mem (escapeHtml_no_lt _))]
  rw [countTr_append _ _ (safeT_of_drop rowT7 (by decide))]
  rw [countTr_append _ _ (safeT_of_not_mem (escapeHtml_no_lt _))]
  rw [countTr_zero_of_not_mem h,
    countTr_zero_of_not_mem (escapeHtml_no_lt (jsOr r.source [])),
    countTr_zero_of_not_mem (escapeHtml_no_lt (jsOr r.trans [])),
    countTr_zero_of_not_mem (escapeHtml_no_lt (jsOr r.issues [])),
    countTr_zero_of_not_mem (escapeHtml_no_lt (jsOr r.fix [])),
    countTr_zero_of_not_mem (escapeHtml_no_lt (jsOr r.score [])),
    countTr_zero_of_not_mem (escapeHtml_no_lt (jsOr r.severity []))]
  rw [show countTr rowT1 = 1 from by decide, show countTr rowT2 = 0 from by decide,
    show countTr rowT3 = 0 from by decide, show countTr rowT6 = 0 from by decide,
    show countTr rowT7 = 0 from by decide, show countTr rowT8 = 0 from by decide]

theorem safeT_renderRow (r : AuditRow) : safeT (renderRow r) := by
  have h : renderRow r
      = (rowT1 ++ (jsCoalesce r.index ++ (rowT2 ++ (escapeHtml (jsOr r.source []) ++
        (rowT3 ++ (escapeHtml (jsOr r.trans []) ++ (rowT3 ++ (escapeHtml (jsOr r.issues []) ++
          (rowT3 ++ (escapeHtml (jsOr r.fix []) ++ (rowT6 ++ (escapeHtml (jsOr r.score []) ++
            (rowT7 ++ escapeHtml (jsOr r.severity [])))))))))))))) ++ rowT8 := by
    unfold renderRow
    simp [List.append_assoc]
  rw [h]
  exact safeT_append_right _ rowT8 (by decide) (safeT_of_drop rowT8 (by decide))

/-- `rowsHtml` contains exactly one `<tr>` opening per row, provided no
index value contains `<`. -/
theorem countTr_rowsHtml (rows : List AuditRow)
    (h : ∀ r ∈ rows, '<' ∉ jsCoalesce r.index) :
    countTr (rowsHtmlL rows) = rows.length := by
  induction rows with
  | nil => rfl
  | cons r rs ih =>
    have hr : rowsHtmlL (r :: rs) = renderRow r ++ rowsHtmlL rs := by
      simp [rowsHtmlL]
    rw [hr, countTr_append _ _ (safeT_renderRow r),
      countTr_renderRow r (h r (List.mem_cons_self r rs)),
      ih (fun x hx => h x (List.mem_cons_of_mem _ hx))]
    simp [Nat.add_comm]

/-! ## Lemmas about `trim` and the prompt template -/

theorem dropWhile_append_nonws {c : Char} (hc : Char.isWhitespace c = false)
    (x y : List Char) :
    (x ++ c :: y).dropWhile Char.isWhitespace =
      x.dropWhile Char.isWhitespace ++ c :: y := by
  induction x with
  | nil => simp [List.dropWhile_cons, hc]
  | cons d x ih =>
    by_cases hd : Char.isWhitespace d
    · simp [List.dropWhile_cons, hd, ih]
    · simp [List.dropWhile_cons, hd]

theorem rtrim_append_nonws {c : Char} (hc : Char.isWhitespace c = false)
    (a b : List Char) :
    rtrim (a ++ c :: b) = a ++ c :: rtrim b := by
  unfold rtrim
  rw [show a ++ c :: b = (a ++ [c]) ++ b from by simp]
  rw [List.reverse_append]
  rw [show (a ++ [c]).reverse = c :: a.reverse from by simp]
  rw [dropWhile_append_nonws hc]
  simp

theorem ltrim_promptHead (z : List Char) :
    ltrim (promptHead ++ z) = promptHead.drop 1 ++ z := by
  have h : promptHead = '\n' :: 'A' :: promptHead.drop 2 := by decide
  have h2 : promptHead.drop 1 = 'A' :: promptHead.drop 2 := by decide
  conv_lhs => rw [h]
  rw [h2]
  show List.dropWhile Char.isWhitespace
    ('\n' :: 'A' :: (promptHead.drop 2 ++ z)) = _
  rw [List.dropWhile_cons, if_pos (by decide), List.dropWhile_cons, if_neg (by decide)]
  rfl

/-- Shape of the trimmed user prompt: the leading newline of the template
is dropped, the trailing trim stops at the colon of `TRANSLATION:`, and
everything in between — in particular the style-guide slot — survives
verbatim. -/
theorem userPrompt_eq (src tgt : List Char) (sty : Option (List Char)) :
    userPrompt src tgt sty =
      promptHead.drop 1 ++ (jsOr sty defaultGuideL ++ (promptMidA ++ (src ++
        ("\n\nTRANSLATION".toList ++ (':' :: rtrim ('\n' :: (tgt ++ ['\n']))))))) := by
  unfold userPrompt userPromptRaw htrim
  have hmb : promptMidB = "\n\nTRANSLATION".toList ++ (':' :: ['\n']) := by decide
  rw [hmb]
  rw [show ltrim (promptHead ++ (jsOr sty defaultGuideL ++ (promptMidA ++ (src ++
        (("\n\nTRANSLATION".toList ++ (':' :: ['\n'])) ++ (tgt ++ "\n".toList))))))
      = promptHead.drop 1 ++ (jsOr sty defaultGuideL ++ (promptMidA ++ (src ++
        (("\n\nTRANSLATION".toList ++ (':' :: ['\n'])) ++ (tgt ++ "\n".toList)))))
    from ltrim_promptHead _]
  rw [show promptHead.drop 1 ++ (jsOr sty defaultGuideL ++ (promptMidA ++ (src ++
        (("\n\nTRANSLATION".toList ++ (':' :: ['\n'])) ++ (tgt ++ "\n".toList)))))
      = (promptHead.drop 1 ++ (jsOr sty defaultGuideL ++ (promptMidA ++ (src ++
        "\n\nTRANSLATION".toList)))) ++ (':' :: ('\n' :: (tgt ++ ['\n'])))
    from by simp [List.append_assoc]]
  rw [rtrim_append_nonws (by decide)]
  simp [List.append_assoc]

theorem jsOr_of_falsy {o : Option (List Char)} (d : List Char)
    (h : truthy o = false) : jsOr o d = d := by
  cases o with
  | none => rfl
  | some s =>
    simp only [truthy, Bool.not_eq_false'] at h
    simp [jsOr, h]

theorem jsOr_of_nonempty {s : List Char} (d : List Char) (h : s ≠ []) :
    jsOr (some s) d = s := by
  simp [jsOr, List.isEmpty_iff, h]

/-- The style-guide slot of the prompt is an infix of the trimmed prompt,
whatever it holds. -/
theorem guideSlot_infix (src tgt : List Char) (sty : Option (List Char)) :
    jsOr sty defaultGuideL <:+: userPrompt src tgt sty := by
  rw [userPrompt_eq]
  exact ⟨promptHead.drop 1,
    promptMidA ++ (src ++ ("\n\nTRANSLATION".toList ++ (':' :: rtrim ('\n' :: (tgt ++ ['\n']))))),
    by simp [List.append_assoc]⟩

/-! ## Claim theorems -/

/-- Claim C1: for every model reply whose text fails a strict JSON parse
but contains a `{` before a `}`, the brace-scan fallback parses exactly
the substring from the first `{` to the last `}`, and its outcome is
identical to a direct strict JSON parse of that substring: the parse
stage succeeds with `p` exactly when the direct parse yields `p`, and
fails exactly when the direct parse fails. -/
theorem brace_fallback_agrees_with_direct_parse
    (jparse : List Char → Option Report) (content : List Char) (i j : Nat)
    (h0 : jparse content = none) (h1 : firstBrace content = some i)
    (h2 : lastBrace content = some j) (h3 : i < j) :
    extractBraces content = some ((content.drop i).take (j + 1 - i))
    ∧ parseStage jparse content
      = ((jparse ((content.drop i).take (j + 1 - i))).elim
          (Except.error parseFailL) Except.ok) := by
  have hx : extractBraces content = some ((content.drop i).take (j + 1 - i)) := by
    unfold extractBraces
    rw [h1, h2]
    simp [h3]
  refine ⟨hx, ?_⟩
  unfold parseStage
  rw [h0, hx]
  show (match jparse ((content.drop i).take (j + 1 - i)) with
    | some p => Except.ok p
    | none => Except.error parseFailL)
    = ((jparse ((content.drop i).take (j + 1 - i))).elim
        (Except.error parseFailL) Except.ok)
  cases hp : jparse ((content.drop i).take (j + 1 - i)) with
  | none => rfl
  | some p => rfl

/-- Witness for C1 at the reply text `x{a}y` and a strict parser that
rejects everything. -/
theorem brace_fallback_agrees_with_direct_parse_witness :
    extractBraces "x\x7ba\x7dy".toList
        = some (("x\x7ba\x7dy".toList.drop 1).take (3 + 1 - 1))
    ∧ parseStage (fun _ => (none : Option Report)) "x\x7ba\x7dy".toList
      = ((((fun _ => (none : Option Report))
            (("x\x7ba\x7dy".toList.drop 1).take (3 + 1 - 1))).elim
          (Except.error parseFailL) Except.ok)) :=
  brace_fallback_agrees_with_direct_parse (fun _ => none) "x\x7ba\x7dy".toList 1 3
    rfl (by decide) (by decide) (by decide)

/-- Claim C2: a POST request with truthy `src` and `tgt` that arrives while
the API credential is unconfigured gets status 500 with the
missing-credential error, the result does not depend on the external API
(no upstream call is observable), and the status differs from the 400/405
client errors. -/
theorem missing_credential_yields_500 (env : Env)
    (jparse : List Char → Option Report) (o1 o2 : Outbound → UpstreamResp)
    (req : Req) (hm : req.method = "POST".toList)
    (hk : truthy env.apiKey = false)
    (hs : truthy (reqBody req).src = true)
    (ht : truthy (reqBody req).tgt = true) :
    handler env jparse o1 req = ⟨500, RespBody.err "Missing OPENAI_API_KEY".toList⟩
    ∧ handler env jparse o1 req = handler env jparse o2 req
    ∧ (500 : Nat) ≠ 400 ∧ (500 : Nat) ≠ 405 := by
  have key : ∀ o : Outbound → UpstreamResp,
      handler env jparse o req = ⟨500, RespBody.err "Missing OPENAI_API_KEY".toList⟩ := by
    intro o
    unfold handler handlerCore
    rw [hm, if_neg (by simp), if_pos hk]
  exact ⟨key o1, (key o1).trans (key o2).symm, by decide, by decide⟩

/-- Witness for C2: concrete POST body with non-empty texts and no
credential. -/
theorem missing_credential_yields_500_witness :
    handler ⟨none⟩ (fun _ => none) (fun _ => UpstreamResp.success none)
        ⟨"POST".toList, some ⟨some "a".toList, some "b".toList, none, []⟩, []⟩
      = ⟨500, RespBody.err "Missing OPENAI_API_KEY".toList⟩
    ∧ handler ⟨none⟩ (fun _ => none) (fun _ => UpstreamResp.success none)
        ⟨"POST".toList, some ⟨some "a".toList, some "b".toList, none, []⟩, []⟩
      = handler ⟨none⟩ (fun _ => none) (fun _ => UpstreamResp.httpError [])
        ⟨"POST".toList, some ⟨some "a".toList, some "b".toList, none, []⟩, []⟩
    ∧ (500 : Nat) ≠ 400 ∧ (500 : Nat) ≠ 405 :=
  missing_credential_yields_500 ⟨none⟩ (fun _ => none)
    (fun _ => UpstreamResp.success none) (fun _ => UpstreamResp.httpError [])
    ⟨"POST".toList, some ⟨some "a".toList, some "b".toList, none, []⟩, []⟩
    rfl rfl rfl rfl

/-- Claim C4: when the reply text strictly fails to parse and the
brace-scan substring (if any) also fails to parse, the handler returns
500 with the fixed parse-failure message, and the response body carries
no rendered HTML at all (hence no partial table). -/
theorem unparseable_reply_yields_500 (env : Env)
    (jparse : List Char → Option Report) (oracle : Outbound → UpstreamResp)
    (req : Req) (raw : List Char)
    (hm : req.method = "POST".toList) (hk : truthy env.apiKey = true)
    (hs : truthy (reqBody req).src = true) (ht : truthy (reqBody req).tgt = true)
    (ho : oracle (mkOutbound ((reqBody req).src.getD []) ((reqBody req).tgt.getD [])
        (reqBody req).style) = UpstreamResp.success (some raw))
    (hp : jparse (htrim raw) = none)
    (hx : ∀ sub, extractBraces (htrim raw) = some sub → jparse sub = none) :
    handler env jparse oracle req = ⟨500, RespBody.err parseFailL⟩
    ∧ ∀ h, (handler env jparse oracle req).body ≠ RespBody.okHtml h := by
  have hps : parseStage jparse (htrim raw) = Except.error parseFailL := by
    unfold parseStage
    rw [hp]
    cases hext : extractBraces (htrim raw) with
    | none => rfl
    | some sub =>
      show (match jparse sub with
        | some p => Except.ok p
        | none => Except.error parseFailL) = Except.error parseFailL
      rw [hx sub hext]
  have key : handler env jparse oracle req = ⟨500, RespBody.err parseFailL⟩ := by
    unfold handler handlerCore
    rw [hm, if_neg (by simp), if_neg (by simp [hk]), if_neg (by simp [hs, ht]), ho]
    show (match parseStage jparse (htrim raw) with
      | Except.error e => (⟨500, RespBody.err e⟩ : HRes)
      | Except.ok parsed => ⟨200, RespBody.okHtml (renderReport parsed)⟩)
      = ⟨500, RespBody.err parseFailL⟩
    rw [hps]
  refine ⟨key, fun h => ?_⟩
  rw [key]
  simp

/-- Witness for C4 at a reply with no parseable JSON and a parser that
rejects everything. -/
theorem unparseable_reply_yields_500_witness :
    handler ⟨some "k".toList⟩ (fun _ => none)
        (fun _ => UpstreamResp.success (some "no json here".toList))
        ⟨"POST".toList, some ⟨some "a".toList, some "b".toList, none, []⟩, []⟩
      = ⟨500, RespBody.err parseFailL⟩
    ∧ ∀ h, (handler ⟨some "k".toList⟩ (fun _ => none)
        (fun _ => UpstreamResp.success (some "no json here".toList))
        ⟨"POST".toList, some ⟨some "a".toList, some "b".toList, none, []⟩, []⟩).body
        ≠ RespBody.okHtml h :=
  unparseable_reply_yields_500 ⟨some "k".toList⟩ (fun _ => none)
    (fun _ => UpstreamResp.success (some "no json here".toList))
    ⟨"POST".toList, some ⟨some "a".toList, some "b".toList, none, []⟩, []⟩
    "no json here".toList rfl rfl rfl rfl rfl rfl (fun _ _ => rfl)

/-- Claim C6: escaping followed by standard entity decoding restores every
string; in particular the round trip holds for strings containing all
five special characters. -/
theorem escape_decode_roundtrip (s : List Char) :
    decodeEntities (escapeHtml s) = s := by
  rw [escapeHtml_eq_flatten]
  induction s with
  | nil => simp [decodeEntities]
  | cons c s ih => rw [List.map_cons, List.flatten_cons, decode_escChar, ih]

/-- Claim C8: a request whose method is not POST gets status 405 with an
error body, and the result depends on nothing else: environment, parser,
external API and the rest of the request are all irrelevant. -/
theorem non_post_yields_405 (env : Env) (jparse : List Char → Option Report)
    (o : Outbound → UpstreamResp) (req : Req)
    (hm : req.method ≠ "POST".toList) :
    handler env jparse o req = ⟨405, RespBody.err "Method not allowed".toList⟩
    ∧ ∀ (env2 : Env) (jparse2 : List Char → Option Report)
        (o2 : Outbound → UpstreamResp) (b2 : Option ReqBody) (h2 : List Char),
        handler env jparse o req = handler env2 jparse2 o2 ⟨req.method, b2, h2⟩ := by
  have key : ∀ (env' : Env) (jp' : List Char → Option Report)
      (o' : Outbound → UpstreamResp) (r' : Req), r'.method = req.method →
      handler env' jp' o' r' = ⟨405, RespBody.err "Method not allowed".toList⟩ := by
    intro env' jp' o' r' hr
    unfold handler handlerCore
    rw [hr, if_pos hm]
  exact ⟨key env jparse o req rfl,
    fun e2 j2 o2 b2 h2 => (key env jparse o req rfl).trans
      (key e2 j2 o2 ⟨req.method, b2, h2⟩ rfl).symm⟩

/-- Witness for C8 at method GET. -/
theorem non_post_yields_405_witness :
    handler ⟨some "k".toList⟩ (fun _ => none) (fun _ => UpstreamResp.success none)
        ⟨"GET".toList, none, []⟩
      = ⟨405, RespBody.err "Method not allowed".toList⟩
    ∧ ∀ (env2 : Env) (jparse2 : List Char → Option Report)
        (o2 : Outbound → UpstreamResp) (b2 : Option ReqBody) (h2 : List Char),
        handler ⟨some "k".toList⟩ (fun _ => none) (fun _ => UpstreamResp.success none)
          ⟨"GET".toList, none, []⟩
        = handler env2 jparse2 o2 ⟨"GET".toList, b2, h2⟩ :=
  non_post_yields_405 ⟨some "k".toList⟩ (fun _ => none)
    (fun _ => UpstreamResp.success none) ⟨"GET".toList, none, []⟩ (by decide)

/-- Claim C9: the handler is a pure function of the method and the
`src`/`tgt`/`style` body fields; with the external API modelled as a
fixed (deterministic) function, two requests agreeing on those data get
identical responses — in particular identical rendered HTML — whatever
other request data (extra body fields, headers) differ. -/
theorem handler_no_hidden_inputs (env : Env)
    (jparse : List Char → Option Report) (o : Outbound → UpstreamResp)
    (r1 r2 : Req) (hm : r1.method = r2.method)
    (hs : (reqBody r1).src = (reqBody r2).src)
    (ht : (reqBody r1).tgt = (reqBody r2).tgt)
    (hy : (reqBody r1).style = (reqBody r2).style) :
    handler env jparse o r1 = handler env jparse o r2 := by
  unfold handler
  rw [hm, hs, ht, hy]

/-- Witness for C9: two requests with the same `src`/`tgt`/`style` but
different extra body data and headers. -/
theorem handler_no_hidden_inputs_witness :
    handler ⟨some "k".toList⟩ (fun _ => none) (fun _ => UpstreamResp.success none)
        ⟨"POST".toList, some ⟨some "a".toList, some "b".toList, none, "x".toList⟩, "h1".toList⟩
      = handler ⟨some "k".toList⟩ (fun _ => none) (fun _ => UpstreamResp.success none)
        ⟨"POST".toList, some ⟨some "a".toList, some "b".toList, none, "y".toList⟩, "h2".toList⟩ :=
  handler_no_hidden_inputs ⟨some "k".toList⟩ (fun _ => none)
    (fun _ => UpstreamResp.success none)
    ⟨"POST".toList, some ⟨some "a".toList, some "b".toList, none, "x".toList⟩, "h1".toList⟩
    ⟨"POST".toList, some ⟨some "a".toList, some "b".toList, none, "y".toList⟩, "h2".toList⟩
    rfl rfl rfl rfl

/-- Claim C10: the index column is interpolated into the row verbatim
(`?? ""` only turns a missing index into the empty string, with no
escaping), so an index value containing a special character reaches the
HTML unescaped — here the apostrophe, a character no template piece
contains — whereas the same value placed in any of the six text cells is
escaped away. -/
theorem index_cell_unescaped :
    (∀ s : List Char, renderRow ⟨some s, none, none, none, none, none, none⟩
      = rowT1 ++ (s ++ (rowT2 ++ (rowT3 ++ (rowT3 ++ (rowT3 ++
          (rowT6 ++ (rowT7 ++ rowT8))))))))
    ∧ aposC ∈ renderRow ⟨some [aposC], none, none, none, none, none, none⟩
    ∧ aposC ∉ renderRow ⟨none, some [aposC], some [aposC], some [aposC],
        some [aposC], some [aposC], some [aposC]⟩ :=
  ⟨fun _ => rfl, by decide, by decide⟩

/-- Claim C3, counterexample: with a single row whose string-valued
`index` field is itself `<tr>`, the rendered rows contain two `<tr>`
openings, not one per list element — the index cell is interpolated
without escaping, so the claim fails as universally stated. -/
theorem one_tr_per_row_cex :
    countTr (rowsHtmlL [⟨some "<tr>".toList, none, none, none, none, none, none⟩])
      ≠ ([⟨some "<tr>".toList, none, none, none, none, none, none⟩]
          : List AuditRow).length := by
  decide

/-- Claim C3, amended: provided no row's index value contains `<` (the
index cell being the one interpolated verbatim), the rendered rows
contain exactly one `<tr>` opening per list element; the rows section is
the concatenation of the per-row renders in list order; each render puts
`escapeHtml` of the corresponding field in each of the six text cells;
and `escapeHtml` rewrites each character independently, sending each of
the five metacharacters to its entity. -/
theorem one_tr_per_row_escaped_cells (rows : List AuditRow)
    (h : ∀ r ∈ rows, '<' ∉ jsCoalesce r.index) :
    countTr (rowsHtmlL rows) = rows.length
    ∧ rowsHtmlL rows = (rows.map renderRow).flatten
    ∧ (∀ r ∈ rows, renderRow r
        = rowT1 ++ (jsCoalesce r.index ++ (rowT2 ++ (escapeHtml (jsOr r.source []) ++
          (rowT3 ++ (escapeHtml (jsOr r.trans []) ++ (rowT3 ++ (escapeHtml (jsOr r.issues []) ++
            (rowT3 ++ (escapeHtml (jsOr r.fix []) ++ (rowT6 ++ (escapeHtml (jsOr r.score []) ++
              (rowT7 ++ (escapeHtml (jsOr r.severity []) ++ rowT8))))))))))))))
    ∧ (∀ s : List Char, escapeHtml s = (s.map escChar).flatten) :=
  ⟨countTr_rowsHtml rows h, rfl, fun _ _ => rfl, escapeHtml_eq_flatten⟩

/-- Witness for the amended C3 at one concrete row holding special
characters in its text fields. -/
theorem one_tr_per_row_escaped_cells_witness :
    countTr (rowsHtmlL [⟨some "1".toList, some "a&b".toList, some "c<d".toList,
        some "e>f".toList, none, some "5/4/5".toList, some "minor".toList⟩])
      = ([⟨some "1".toList, some "a&b".toList, some "c<d".toList,
          some "e>f".toList, none, some "5/4/5".toList, some "minor".toList⟩]
          : List AuditRow).length
    ∧ rowsHtmlL [⟨some "1".toList, some "a&b".toList, some "c<d".toList,
        some "e>f".toList, none, some "5/4/5".toList, some "minor".toList⟩]
      = (([⟨some "1".toList, some "a&b".toList, some "c<d".toList,
          some "e>f".toList, none, some "5/4/5".toList, some "minor".toList⟩]
          : List AuditRow).map renderRow).flatten
    ∧ (∀ r ∈ ([⟨some "1".toList, some "a&b".toList, some "c<d".toList,
          some "e>f".toList, none, some "5/4/5".toList, some "minor".toList⟩]
          : List AuditRow), renderRow r
        = rowT1 ++ (jsCoalesce r.index ++ (rowT2 ++ (escapeHtml (jsOr r.source []) ++
          (rowT3 ++ (escapeHtml (jsOr r.trans []) ++ (rowT3 ++ (escapeHtml (jsOr r.issues []) ++
            (rowT3 ++ (escapeHtml (jsOr r.fix []) ++ (rowT6 ++ (escapeHtml (jsOr r.score []) ++
              (rowT7 ++ (escapeHtml (jsOr r.severity []) ++ rowT8))))))))))))))
    ∧ (∀ s : List Char, escapeHtml s = (s.map escChar).flatten) :=
  one_tr_per_row_escaped_cells
    [⟨some "1".toList, some "a&b".toList, some "c<d".toList,
      some "e>f".toList, none, some "5/4/5".toList, some "minor".toList⟩]
    (by decide)

/-- Claim C5, counterexample: the style slot uses JavaScript `||`, so a
provided-but-empty style value falls back to the default guide (first
conjunct), and a provided style equal to the default guide trivially
makes the default appear in the prompt (second conjunct) — refuting the
words "the default guide then does not appear at all" for every provided
style value. -/
theorem style_substitution_cex :
    (defaultGuideL <:+: userPrompt "a".toList "b".toList (some []))
    ∧ (defaultGuideL <:+: userPrompt "a".toList "b".toList (some defaultGuideL)) := by
  constructor
  · have h := guideSlot_infix "a".toList "b".toList (some [])
    rwa [jsOr_of_falsy _ (show truthy (some ([] : List Char)) = false from rfl)] at h
  · have h := guideSlot_infix "a".toList "b".toList (some defaultGuideL)
    rwa [jsOr_of_nonempty _ (by decide)] at h

/-- Claim C5, amended: when `style` is omitted the default guide text
appears in the prompt sent upstream; when the caller provides a
*non-empty* style value, that value appears in the prompt in the
style-guide slot of the fixed template, and no fixed template piece
contains the default guide — so the default can appear only through
caller-supplied text (as the counterexample shows it can). -/
theorem style_substitution (src tgt s : List Char) (hs : s ≠ []) :
    (defaultGuideL <:+: userPrompt src tgt none)
    ∧ (s <:+: userPrompt src tgt (some s))
    ∧ userPrompt src tgt (some s)
      = promptHead.drop 1 ++ (s ++ (promptMidA ++ (src ++
          ("\n\nTRANSLATION".toList ++ (':' :: rtrim ('\n' :: (tgt ++ ['\n'])))))))
    ∧ ¬ (defaultGuideL <:+: promptHead) ∧ ¬ (defaultGuideL <:+: promptMidA)
    ∧ ¬ (defaultGuideL <:+: promptMidB) := by
  have hinf1 := guideSlot_infix src tgt none
  have hinf2 := guideSlot_infix src tgt (some s)
  rw [jsOr_of_nonempty _ hs] at hinf2
  refine ⟨hinf1, hinf2, ?_, by decide, by decide, by decide⟩
  rw [userPrompt_eq, jsOr_of_nonempty _ hs]

/-- Witness for the amended C5 at concrete texts and style. -/
theorem style_substitution_witness :
    (defaultGuideL <:+: userPrompt "a".toList "b".toList none)
    ∧ ("x".toList <:+: userPrompt "a".toList "b".toList (some "x".toList))
    ∧ userPrompt "a".toList "b".toList (some "x".toList)
      = promptHead.drop 1 ++ ("x".toList ++ (promptMidA ++ ("a".toList ++
          ("\n\nTRANSLATION".toList
            ++ (':' :: rtrim ('\n' :: ("b".toList ++ ['\n'])))))))
    ∧ ¬ (defaultGuideL <:+: promptHead) ∧ ¬ (defaultGuideL <:+: promptMidA)
    ∧ ¬ (defaultGuideL <:+: promptMidB) :=
  style_substitution "a".toList "b".toList "x".toList (by decide)

/-- Claim C7, counterexample: the credential check precedes body
validation, so a POST request lacking both `src` and `tgt` that arrives
with no credential configured gets status 500, not 400. -/
theorem missing_fields_yield_400_cex :
    handler ⟨none⟩ (fun _ => none) (fun _ => UpstreamResp.success none)
        ⟨"POST".toList, none, []⟩
      = ⟨500, RespBody.err "Missing OPENAI_API_KEY".toList⟩
    ∧ (500 : Nat) ≠ 400 :=
  ⟨rfl, by decide⟩

/-- Claim C7, amended: provided the API credential is configured, every
POST request whose body lacks `src` or lacks `tgt` gets status 400 with
an error body, and the result does not depend on the external API (no
upstream call is observable). -/
theorem missing_fields_yield_400 (env : Env)
    (jparse : List Char → Option Report) (o : Outbound → UpstreamResp)
    (req : Req) (hm : req.method = "POST".toList)
    (hk : truthy env.apiKey = true)
    (h : (reqBody req).src = none ∨ (reqBody req).tgt = none) :
    handler env jparse o req
      = ⟨400, RespBody.err "Missing source or translation".toList⟩
    ∧ ∀ o2 : Outbound → UpstreamResp,
        handler env jparse o req = handler env jparse o2 req := by
  have key : ∀ oo : Outbound → UpstreamResp,
      handler env jparse oo req
        = ⟨400, RespBody.err "Missing source or translation".toList⟩ := by
    intro oo
    unfold handler handlerCore
    rw [hm, if_neg (by simp), if_neg (by simp [hk])]
    rcases h with h | h <;> rw [h] <;> simp [truthy]
  exact ⟨key o, fun o2 => (key o).trans (key o2).symm⟩

/-- Witness for the amended C7: configured credential, missing `src`. -/
theorem missing_fields_yield_400_witness :
    handler ⟨some "k".toList⟩ (fun _ => none) (fun _ => UpstreamResp.success none)
        ⟨"POST".toList, some ⟨none, some "b".toList, none, []⟩, []⟩
      = ⟨400, RespBody.err "Missing source or translation".toList⟩
    ∧ ∀ o2 : Outbound → UpstreamResp,
        handler ⟨some "k".toList⟩ (fun _ => none) (fun _ => UpstreamResp.success none)
          ⟨"POST".toList, some ⟨none, some "b".toList, none, []⟩, []⟩
        = handler ⟨some "k".toList⟩ (fun _ => none) o2
          ⟨"POST".toList, some ⟨none, some "b".toList, none, []⟩, []⟩ :=
  missing_fields_yield_400 ⟨some "k".toList⟩ (fun _ => none)
    (fun _ => UpstreamResp.success none)
    ⟨"POST".toList, some ⟨none, some "b".toList, none, []⟩, []⟩
    rfl rfl (Or.inl rfl)

end TranslationAuditor
